import Mathlib

/-!
Verification of the BilingualCrawler repository.

Shallow embedding of `Sitemap.py` (the recursive sitemap crawler) and
`TextCrawler.py` (the downstream bilingual-pair extractor), with theorems
settling the specification claims about them.

Modelling conventions:
* Python strings are Lean `String`s; code-point operations are carried out on
  `String.data : List Char` (Python compares and slices by code points).
* Python `set` objects are modelled as duplicate-free `List`s kept in insertion
  order; `x in s` is list membership.
* External collaborators (HTTP, BeautifulSoup+urljoin, langdetect) are oracles
  supplied as function-valued fields of an environment record, exactly as the
  spec designates them ("treated as a function ...").
-/

set_option maxRecDepth 100000

namespace Crawler

/-! ### Constants (`Sitemap.py` lines 11-16).
`MAX_CONCURRENT_REQUESTS` and `REQUEST_TIMEOUT` configure the semaphore and the
per-request timeout; they do not affect which URLs are processed, only pacing,
so they appear here only as values. -/

def MAX_DEPTH : Nat := 3
def MAX_URLS_PER_DEPTH : Nat := 50
def MAX_CONCURRENT_REQUESTS : Nat := 20
def REQUEST_TIMEOUT : Nat := 30
def VALID_EXTENSIONS : List String := [".htm", ".html", ""]

/-! ### CPython `urllib.parse` fragments used by the crawler.
`get_host_name` uses `urlsplit`; `should_process_url` uses `urlparse(url).path`
and `os.path.splitext`.  The embedding follows the CPython implementations
(`urllib/parse.py`, `genericpath.py`), restricted to what those call sites
exercise: scheme/netloc/path/query/fragment splitting and parameter stripping.
`str.lower` is modelled for ASCII letters (all strings the accepted-extension
comparison can succeed on are ASCII). -/

/-- ASCII lowercasing of one character (CPython `str.lower` on ASCII input). -/
def lowerChar (c : Char) : Char :=
  if 'A' ≤ c ∧ c ≤ 'Z' then Char.ofNat (c.toNat + 32) else c

/-- ASCII lowercasing of a string. -/
def lowerStr (s : String) : String :=
  String.mk (s.data.map lowerChar)

/-- Characters allowed in a URL scheme after the leading letter
(CPython `scheme_chars = ascii_letters + digits + '+-.'`). -/
def schemeChar (c : Char) : Bool :=
  c.isAlpha || c.isDigit || c = '+' || c = '-' || c = '.'

/-- Python `s.startswith(pre)`: code-point prefix test. -/
def startswith (s pre : String) : Bool :=
  pre.data.isPrefixOf s.data

/-- Index of the last occurrence of `c` in `cs` (CPython `str.rfind`,
`none` when absent). -/
def lastIndexOf (cs : List Char) (c : Char) : Option Nat :=
  (cs.reverse.findIdx? (· = c)).map (fun i => cs.length - 1 - i)

/-- First occurrence of `c` in `cs` at an index `≥ start`
(CPython `str.find(c, start)`). -/
def findIdxFrom (cs : List Char) (c : Char) (start : Nat) : Option Nat :=
  ((cs.drop start).findIdx? (· = c)).map (· + start)

/-- Split off the scheme (CPython `urlsplit` step one): if the text before the
first `':'` is nonempty, starts with an ASCII letter and consists of scheme
characters, it is the scheme (lowercased) and the rest follows the colon. -/
def splitScheme (cs : List Char) : Option (List Char) × List Char :=
  match cs.findIdx? (· = ':') with
  | none => (none, cs)
  | some i =>
    if i > 0 ∧ (cs.headD ' ').isAlpha ∧ ((cs.take i).drop 1).all schemeChar then
      (some ((cs.take i).map lowerChar), cs.drop (i + 1))
    else (none, cs)

/-- Split off the network location (CPython `_splitnetloc`): everything up to
the first `'/'`, `'?'` or `'#'`.  `cs` is the text after the leading `"//"`. -/
def splitNetloc (cs : List Char) : List Char × List Char :=
  let i := match cs.findIdx? (fun c => c = '/' ∨ c = '?' ∨ c = '#') with
           | none => cs.length
           | some i => i
  (cs.take i, cs.drop i)

/-- Result of CPython `urlsplit`. -/
structure SplitResult where
  scheme : String
  netloc : String
  path : String
  query : String
  fragment : String
deriving Repr, DecidableEq

/-- CPython `urllib.parse.urlsplit` (with `allow_fragments=True`):
scheme split, then netloc after `"//"`, then the fragment after the first
`'#'`, then the query after the first `'?'`; the remainder is the path. -/
def urlsplit (url : String) : SplitResult :=
  let (scheme?, afterScheme) := splitScheme url.data
  let (netloc, afterNetloc) :=
    if afterScheme.take 2 = ['/', '/'] then splitNetloc (afterScheme.drop 2)
    else ([], afterScheme)
  let (beforeFrag, fragment) :=
    match afterNetloc.findIdx? (· = '#') with
    | none => (afterNetloc, [])
    | some i => (afterNetloc.take i, afterNetloc.drop (i + 1))
  let (path, query) :=
    match beforeFrag.findIdx? (· = '?') with
    | none => (beforeFrag, [])
    | some i => (beforeFrag.take i, beforeFrag.drop (i + 1))
  { scheme := String.mk (scheme?.getD [])
    netloc := String.mk netloc
    path := String.mk path
    query := String.mk query
    fragment := String.mk fragment }

/-- CPython `urllib.parse._splitparams`, keeping only the path part: the path
is cut at the first `';'` of its last segment. -/
def splitparams (cs : List Char) : List Char :=
  match lastIndexOf cs '/' with
  | some s =>
    match findIdxFrom cs ';' s with
    | none => cs
    | some i => cs.take i
  | none =>
    match cs.findIdx? (· = ';') with
    | none => cs
    | some i => cs.take i

/-- `urlparse(url).path`: the `urlsplit` path with parameters stripped when it
contains a `';'` (CPython `urlparse`). -/
def urlparse_path (url : String) : String :=
  let r := urlsplit url
  if r.path.data.contains ';' then String.mk (splitparams r.path.data) else r.path

/-- `os.path.splitext(p)[1]` (CPython `genericpath._splitext` with `sep='/'`,
`extsep='.'`): the extension starts at the last dot, provided it lies in the
final path segment and that segment has a non-dot character before it. -/
def splitext_ext (p : String) : String :=
  let cs := p.data
  match lastIndexOf cs '.' with
  | none => ""
  | some dotIndex =>
    let filenameStart := match lastIndexOf cs '/' with
                         | none => 0
                         | some s => s + 1
    if filenameStart ≤ dotIndex ∧
        ((cs.drop filenameStart).take (dotIndex - filenameStart)).any (· ≠ '.') then
      String.mk (cs.drop dotIndex)
    else ""

/-- `RecursiveWebCrawler.get_host_name` (`Sitemap.py` lines 34-36):
`"{0.scheme}://{0.netloc}".format(urlsplit(url))`. -/
def get_host_name (url : String) : String :=
  let r := urlsplit url
  r.scheme ++ "://" ++ r.netloc

/-- `RecursiveWebCrawler.should_process_url` (`Sitemap.py` lines 46-56).
`host_name` is the crawler's `self.host_name`, computed once from the seed by
`get_host_name`.  Empty URLs are falsy; the domain test is
`url.startswith(self.host_name)`; the extension of `urlparse(url).path` is
lowercased and tested against `VALID_EXTENSIONS`. -/
def should_process_url (host_name url : String) : Bool :=
  if url = "" then false
  else if !(startswith url host_name) then false
  else decide (lowerStr (splitext_ext (urlparse_path url)) ∈ VALID_EXTENSIONS)

/-! ### The crawl state machine (`Sitemap.py` lines 58-136).

The crawler's externals are an environment record:
* `http u` is the outcome of `session.get(u)` — an HTTP response with status
  and body, a timeout, or a transport error (`Sitemap.py` lines 58-68);
* `links body base` is the set of absolute URLs produced by BeautifulSoup's
  anchor scan plus `urljoin(base, href)` over `body` (`Sitemap.py` lines 74-76),
  listed in some fixed order (Python iterates a `set` in unspecified order; no
  theorem below depends on this order);
* `ioErr n` tells whether the `n`-th `save_progress` call raises `IOError`.

Concurrency model.  `crawl_recursive` runs `asyncio.gather` over one
`process_url` coroutine per batch entry.  Each coroutine's synchronous prefix —
the `depth > MAX_DEPTH or url in self.visited_urls` test and the
`visited_urls.add(url)` that issues the fetch — runs to its first true await
point when the event loop first schedules it, and the loop schedules all of the
batch's coroutines, in list order, before it can deliver any network
completion.  After that prefix the shared state is read again only inside
`extract_urls`, which runs after the fetch completes, i.e. after every
coroutine's prefix has run, and which does not mutate `visited_urls`.  The
batch therefore executes as: all check-and-mark prefixes in batch order
(`dispatchPhase`), then each task's fetch+extract against the resulting
visited set (`taskResult`).  Ghost fields (`events`, `batches`, `fetchTrace`,
`enqueues`) record what happened; they feed no decision in the code. -/

/-- Outcome of `session.get(url)`: a response with HTTP status and body text,
a timeout (`async_timeout`), or a transport-level exception. -/
inductive FetchOutcome where
  | response (status : Nat) (body : String)
  | timeout
  | netError
deriving Repr, DecidableEq

/-- The crawler's external collaborators. -/
structure CrawlEnv where
  http : String → FetchOutcome
  links : String → String → List String
  ioErr : Nat → Bool

/-- `RecursiveWebCrawler.fetch_url` (`Sitemap.py` lines 58-68): body text on
status 200; `None` on any other status (logged as a warning), on timeout or on
a transport exception (both logged as errors). -/
def fetch_url (env : CrawlEnv) (url : String) : Option String :=
  match env.http url with
  | .response status body => if status = 200 then some body else none
  | .timeout => none
  | .netError => none

/-- `RecursiveWebCrawler.extract_urls` (`Sitemap.py` lines 70-81): build the
set of anchor targets that pass `should_process_url` and are not yet visited.
The Python `set` is modelled as a duplicate-free list in insertion order. -/
def extract_urls (env : CrawlEnv) (host : String) (html_content base_url : String)
    (visited : List String) : List String :=
  (env.links html_content base_url).foldl
    (fun urls full_url =>
      if should_process_url host full_url = true ∧ full_url ∉ visited ∧ full_url ∉ urls
      then urls ++ [full_url] else urls) []

/-- One crawl event, for stating trace properties. -/
inductive CrawlEvent where
  | batchStart (batch : List (String × Nat)) (lastDepth : Nat)
  | fetch (url : String) (depth : Nat)
  | checkpoint (visitedSnapshot : List String) (ok : Bool)
deriving Repr, DecidableEq

/-- The crawler's mutable state plus ghost instrumentation.
`file` is the contents of `self.output_file` as a list of lines (`none` while
the file has never been written); `nCheckpoints` counts `save_progress`
calls. -/
structure CrawlState where
  visited : List String
  queue : List (String × Nat)
  file : Option (List String)
  nCheckpoints : Nat
  events : List CrawlEvent
  batches : List (List (String × Nat))
  fetchTrace : List (String × Nat)
  enqueues : List (String × Nat)
deriving Repr

/-- The batch-collection loop (`Sitemap.py` lines 102-108): pop frontier
entries, skipping already-visited ones, until the batch holds
`MAX_URLS_PER_DEPTH` entries or the queue is empty.  Returns the batch, the
final value of the Python loop variable `depth` (the depth of the last popped
entry — also of popped entries that were skipped), and the remaining queue. -/
def collectBatch (visited : List String) :
    List (String × Nat) → List (String × Nat) → Nat →
    List (String × Nat) × Nat × List (String × Nat)
  | [], batch, lastDepth => (batch, lastDepth, [])
  | (url, depth) :: rest, batch, lastDepth =>
    if batch.length < MAX_URLS_PER_DEPTH then
      if url ∈ visited then collectBatch visited rest batch depth
      else collectBatch visited rest (batch ++ [(url, depth)]) depth
    else (batch, lastDepth, (url, depth) :: rest)

/-- The synchronous prefixes of the batch's `process_url` coroutines
(`Sitemap.py` lines 83-90), in batch order: each entry whose depth does not
exceed `MAX_DEPTH` and whose URL is unvisited is marked visited and has its
fetch issued (`some`); the others return the empty set without fetching
(`none`). -/
def dispatchPhase : List (String × Nat) → List String →
    List String × List (Option (String × Nat))
  | [], visited => (visited, [])
  | (url, depth) :: rest, visited =>
    if depth > MAX_DEPTH ∨ url ∈ visited then
      let r := dispatchPhase rest visited
      (r.1, none :: r.2)
    else
      let r := dispatchPhase rest (visited ++ [url])
      (r.1, some (url, depth) :: r.2)

/-- The remainder of one `process_url` coroutine (`Sitemap.py` lines 90-94)
for a task that did (`some`) or did not (`none`) issue a fetch: a failed fetch
or a falsy (empty) body yields the empty set, otherwise `extract_urls` runs
against the visited set as it stands after every prefix has run. -/
def taskResult (env : CrawlEnv) (host : String) (visitedAfter : List String) :
    Option (String × Nat) → List String
  | none => []
  | some (url, _) =>
    match fetch_url env url with
    | none => []
    | some html_content =>
      if html_content = "" then []
      else extract_urls env host html_content url visitedAfter

/-- The fetches a batch's prefixes issued, in batch order (the `some` entries
of the `dispatchPhase` task list). -/
def issued : List (Option (String × Nat)) → List (String × Nat)
  | [] => []
  | none :: rest => issued rest
  | some p :: rest => p :: issued rest

/-- The merge step (`Sitemap.py` lines 117-121): walk the gathered results in
task order and append each URL not in the visited set to the frontier at
`depth + 1`, where `depth` is the batch-collection loop's final value.
Returns the list of appended entries. -/
def mergeResults (visited : List String) (depth : Nat)
    (results : List (List String)) : List (String × Nat) :=
  results.foldl
    (fun acc new_urls =>
      new_urls.foldl
        (fun acc2 new_url =>
          if new_url ∈ visited then acc2 else acc2 ++ [(new_url, depth + 1)])
        acc) []

/-- `RecursiveWebCrawler.save_progress` (`Sitemap.py` lines 129-136), the file
contents it writes: the visited set in Python `sorted` order (lexicographic by
code point), one URL per line. -/
def save_progress_lines (visited : List String) : List String :=
  List.insertionSort (· ≤ ·) visited

/-- One iteration of the outer `while url_queue` loop (`Sitemap.py` lines
101-127): collect a batch (`continue` when it is empty), run the batch, merge
the results at `depth + 1`, and call `save_progress` — which rewrites the
whole file from the sorted visited set, or leaves it untouched when the write
raises `IOError` (caught and logged, lines 135-136). -/
def crawlStep (env : CrawlEnv) (host : String) (st : CrawlState) : CrawlState :=
  let c := collectBatch st.visited st.queue [] 0
  let batch := c.1
  let lastDepth := c.2.1
  let rest := c.2.2
  if batch = [] then { st with queue := rest }
  else
    let d := dispatchPhase batch st.visited
    let visited' := d.1
    let results := d.2.map (taskResult env host visited')
    let fetches := issued d.2
    let newEntries := mergeResults visited' lastDepth results
    let ok := !(env.ioErr st.nCheckpoints)
    { visited := visited'
      queue := rest ++ newEntries
      file := if ok then some (save_progress_lines visited') else st.file
      nCheckpoints := st.nCheckpoints + 1
      events := st.events ++ [CrawlEvent.batchStart batch lastDepth]
                  ++ fetches.map (fun p => CrawlEvent.fetch p.1 p.2)
                  ++ [CrawlEvent.checkpoint visited' ok]
      batches := st.batches ++ [batch]
      fetchTrace := st.fetchTrace ++ fetches
      enqueues := st.enqueues ++ newEntries }

/-- The outer `while url_queue` loop, fuel-indexed (the Python loop runs until
the frontier empties; every claim below holds for every fuel value). -/
def crawlLoop (env : CrawlEnv) (host : String) : Nat → CrawlState → CrawlState
  | 0, st => st
  | fuel + 1, st =>
    if st.queue = [] then st else crawlLoop env host fuel (crawlStep env host st)

/-- The crawler's initial state: `url_queue = deque([(self.start_url, 1)])`
(`Sitemap.py` line 99), nothing visited, file never written. -/
def initState (start_url : String) : CrawlState :=
  { visited := []
    queue := [(start_url, 1)]
    file := none
    nCheckpoints := 0
    events := []
    batches := []
    fetchTrace := []
    enqueues := [] }

/-- `RecursiveWebCrawler.crawl_recursive` (`Sitemap.py` lines 96-127) run with
`fuel` outer-loop iterations, with `self.host_name = get_host_name(start_url)`
(`Sitemap.py` line 24). -/
def crawl_recursive (env : CrawlEnv) (start_url : String) (fuel : Nat) : CrawlState :=
  crawlLoop env (get_host_name start_url) fuel (initState start_url)

/-! ### Concrete environments used to instantiate the theorems. -/

/-- An environment built from a finite page table: `http u` returns status 200
with the page's own URL as body, and `links` looks the body up in the table.
URLs absent from the table fetch successfully but link nowhere. -/
def tableEnv (table : List (String × List String)) : CrawlEnv :=
  { http := fun u => FetchOutcome.response 200 u
    links := fun body _ =>
      ((table.find? (fun p => p.1 = body)).map Prod.snd).getD []
    ioErr := fun _ => false }

/-- Seed URL of the wide concrete site. -/
def exSeed : String := "s://h"

/-- `exUrl i` is the `i`-th child of the seed. -/
def exUrl (i : Nat) : String := "s://h/" ++ toString i

/-- `exY i` is the child page of `exUrl i`. -/
def exY (i : Nat) : String := "s://h/y" ++ toString i

/-- A site whose seed links to 51 pages — one more than `MAX_URLS_PER_DEPTH` —
each of which links to one fresh page. -/
def exTable : List (String × List String) :=
  (exSeed, (List.range 51).map exUrl) :: (List.range 51).map (fun i => (exUrl i, [exY i]))

/-- The wide concrete environment. -/
def exEnv : CrawlEnv := tableEnv exTable

/-- The crawl of the wide concrete site, run to completion (it terminates
after 5 outer-loop iterations). -/
def exRun : CrawlState := crawl_recursive exEnv exSeed 6

/-- A two-page site: the seed links to one child page with no further links. -/
def tinyTable : List (String × List String) := [("t://h", ["t://h/a"])]

/-- The two-page environment. -/
def tinyEnv : CrawlEnv := tableEnv tinyTable

/-- The two-page crawl, run to completion. -/
def tinyRun : CrawlState := crawl_recursive tinyEnv "t://h" 4

/-- The two-page environment with the first `save_progress` call raising
`IOError` and every later one succeeding. -/
def tinyEnvIO : CrawlEnv := { tinyEnv with ioErr := fun n => n = 0 }

/-- The two-page crawl under `tinyEnvIO`. -/
def tinyRunIO : CrawlState := crawl_recursive tinyEnvIO "t://h" 4

/-! ### `TextCrawler.py`: the downstream bilingual-pair extractor.

`langdetect.detect` (wrapped by the cached `detect_language`, which returns
`''` on a detection exception) is an external oracle `detect`.  A fetched page
reduces, for `get_bilingual_text`, to either a `requests.RequestException`
(caught, lines 83-84), a page without an `entry-content` div (lines 69-70), or
the list of `get_text(strip=True)` strings of that div's `<p>` elements.

The loop of `get_bilingual_text` (lines 75-79) runs `i` over
`range(len(paragraphs) - 1)`; the `i += 1` on line 79 is overwritten by the
`for` statement's next assignment to `i` and has no effect, so every adjacent
pair is examined.  The pairs `(paragraphs[i], paragraphs[i+1])` are exactly
`paragraphs.zip paragraphs.tail`. -/

/-- `LANG_VI` (`TextCrawler.py` line 13). -/
def LANG_VI : String := "vi"

/-- `LANG_EN` (`TextCrawler.py` line 14). -/
def LANG_EN : String := "en"

/-- `clean_text` (`TextCrawler.py` lines 40-42): delete every NBSP and
zero-width-space character. -/
def clean_text (text : String) : String :=
  String.mk (text.data.filter (fun c => c ≠ '\u00A0' ∧ c ≠ '\u200B'))

/-- The crawl state without its output-file and event-log components: visited
set, frontier, checkpoint counter, fetch trace, batch trace, enqueue trace. -/
def coreState (st : CrawlState) :
    List String × List (String × Nat) × Nat × List (String × Nat) ×
      List (List (String × Nat)) × List (String × Nat) :=
  (st.visited, st.queue, st.nCheckpoints, st.fetchTrace, st.batches, st.enqueues)

/-- What `get_bilingual_text` sees of a fetched page. -/
inductive PageResult where
  | fetchError
  | noContentDiv
  | paragraphs (ps : List String)

/-- `process_paragraph_pair` (`TextCrawler.py` lines 45-60) on the two
paragraphs' `get_text` strings, with `detect` the language oracle. -/
def process_paragraph_pair (detect : String → String) (p1 p2 : String) :
    Option (String × String) :=
  let text1 := clean_text p1
  let text2 := clean_text p2
  if text1 = "" ∨ text2 = "" then none
  else
    let lang1 := detect text1
    let lang2 := detect text2
    if lang1 = LANG_VI ∧ lang2 = LANG_EN then some (text1, text2)
    else if lang1 = LANG_EN ∧ lang2 = LANG_VI then some (text2, text1)
    else none

/-- `get_bilingual_text` (`TextCrawler.py` lines 63-84): empty on fetch error
or missing content div; otherwise collect the valid pairs of adjacent
paragraphs in page order. -/
def get_bilingual_text (detect : String → String) (page : PageResult) :
    List (String × String) :=
  match page with
  | .fetchError => []
  | .noContentDiv => []
  | .paragraphs ps =>
    (ps.zip ps.tail).foldl
      (fun bilingual_pairs p =>
        match process_paragraph_pair detect p.1 p.2 with
        | some result => bilingual_pairs ++ [result]
        | none => bilingual_pairs) []

/-- A concrete language oracle: one Vietnamese text, one English text,
everything else French. -/
def exDetect : String → String :=
  fun s => if s = "xin chao" then LANG_VI else if s = "hello" then LANG_EN else "fr"

/-- Replace the HTTP outcome of one URL, leaving the rest of the environment
unchanged. -/
def setHttp (env : CrawlEnv) (a : String) (o : FetchOutcome) : CrawlEnv :=
  { env with http := fun u => if u = a then o else env.http u }

/-- Barrier shape of an event trace: a sequence of completed segments, each a
`batchStart b`, then fetches only of entries of `b`, then the segment's
`checkpoint` — so one batch's fetches and its checkpoint finish before the
next batch starts.  The first argument is `some b` while inside `b`'s
segment. -/
def traceOk : Option (List (String × Nat)) → List CrawlEvent → Bool
  | none, [] => true
  | none, CrawlEvent.batchStart b _ :: rest => traceOk (some b) rest
  | none, CrawlEvent.fetch _ _ :: _ => false
  | none, CrawlEvent.checkpoint _ _ :: _ => false
  | some _, [] => false
  | some b, CrawlEvent.fetch u d :: rest => decide ((u, d) ∈ b) && traceOk (some b) rest
  | some _, CrawlEvent.checkpoint _ _ :: rest => traceOk none rest
  | some _, CrawlEvent.batchStart _ _ :: _ => false

/-! ## Theorems

General helper lemmas first, then one theorem per specification claim (with
its witness or counterexample). -/

/-- A property preserved by `crawlStep` holds after any number of loop
iterations. -/
theorem crawlLoop_inv (env : CrawlEnv) (host : String) (P : CrawlState → Prop)
    (hstep : ∀ st, P st → P (crawlStep env host st)) :
    ∀ (fuel : Nat) (st : CrawlState), P st → P (crawlLoop env host fuel st) := by
  intro fuel
  induction fuel with
  | zero => intro st h; exact h
  | succ n ih =>
    intro st h
    unfold crawlLoop
    split
    · exact h
    · exact ih _ (hstep st h)

/-- A fold that only ever appends elements satisfying `P` preserves
`∀ b ∈ ·, P b`. -/
theorem foldl_preserves {α β : Type} (P : β → Prop) (f : List β → α → List β)
    (hf : ∀ acc a, (∀ b ∈ acc, P b) → ∀ b ∈ f acc a, P b) :
    ∀ (l : List α) (acc : List β), (∀ b ∈ acc, P b) → ∀ b ∈ l.foldl f acc, P b := by
  intro l
  induction l with
  | nil => intro acc h; simpa using h
  | cons a l ih => intro acc h; exact ih (f acc a) (hf acc a h)

/-- The visited set after a batch's prefixes is the old visited set followed
by the URLs whose fetches were issued, in batch order. -/
theorem dispatchPhase_visited_eq (batch : List (String × Nat)) :
    ∀ v : List String,
      (dispatchPhase batch v).1 =
        v ++ (issued (dispatchPhase batch v).2).map Prod.fst := by
  induction batch with
  | nil => intro v; simp [dispatchPhase, issued]
  | cons p rest ih =>
    intro v
    obtain ⟨url, depth⟩ := p
    by_cases h : depth > MAX_DEPTH ∨ url ∈ v
    · simp [dispatchPhase, h, issued, ih v]
    · simp [dispatchPhase, h, issued, ih (v ++ [url])]

/-- Every issued fetch comes from the batch, respects the depth cap, and its
URL was unvisited when the batch started. -/
theorem dispatchPhase_fetched_spec (batch : List (String × Nat)) :
    ∀ v : List String, ∀ p ∈ issued (dispatchPhase batch v).2,
      p ∈ batch ∧ p.2 ≤ MAX_DEPTH ∧ p.1 ∉ v := by
  induction batch with
  | nil => intro v p hp; simp [dispatchPhase, issued] at hp
  | cons q rest ih =>
    intro v p hp
    obtain ⟨url, depth⟩ := q
    by_cases h : depth > MAX_DEPTH ∨ url ∈ v
    · simp only [dispatchPhase, if_pos h, issued] at hp
      obtain ⟨h1, h2, h3⟩ := ih v p hp
      exact ⟨List.mem_cons_of_mem _ h1, h2, h3⟩
    · simp only [dispatchPhase, if_neg h, issued, List.mem_cons] at hp
      push_neg at h
      rcases hp with rfl | hp
      · exact ⟨List.mem_cons_self _ _, h.1, h.2⟩
      · obtain ⟨h1, h2, h3⟩ := ih (v ++ [url]) p hp
        refine ⟨List.mem_cons_of_mem _ h1, h2, fun hv => h3 ?_⟩
        exact List.mem_append_left _ hv

/-- The URLs fetched within one batch are pairwise distinct. -/
theorem dispatchPhase_fetched_nodup (batch : List (String × Nat)) :
    ∀ v : List String,
      ((issued (dispatchPhase batch v).2).map Prod.fst).Nodup := by
  induction batch with
  | nil => intro v; simp [dispatchPhase, issued]
  | cons q rest ih =>
    intro v
    obtain ⟨url, depth⟩ := q
    by_cases h : depth > MAX_DEPTH ∨ url ∈ v
    · simpa only [dispatchPhase, if_pos h, issued] using ih v
    · simp only [dispatchPhase, if_neg h, issued, List.map_cons, List.nodup_cons]
      refine ⟨fun hm => ?_, ih (v ++ [url])⟩
      obtain ⟨p, hp, hpu⟩ := List.mem_map.mp hm
      exact (dispatchPhase_fetched_spec rest (v ++ [url]) p hp).2.2
        (List.mem_append_right _ (hpu ▸ List.mem_singleton_self url))

/-- Marking only unvisited URLs keeps the visited list duplicate-free. -/
theorem dispatchPhase_visited_nodup (batch : List (String × Nat)) (v : List String)
    (hv : v.Nodup) : (dispatchPhase batch v).1.Nodup := by
  rw [dispatchPhase_visited_eq]
  refine List.nodup_append.mpr ⟨hv, dispatchPhase_fetched_nodup batch v, ?_⟩
  intro u hu hu'
  obtain ⟨p, hp, hpu⟩ := List.mem_map.mp hu'
  exact (dispatchPhase_fetched_spec batch v p hp).2.2 (hpu ▸ hu)

/-- The batch never exceeds `MAX_URLS_PER_DEPTH` entries. -/
theorem collectBatch_length (visited : List String) :
    ∀ (queue batch : List (String × Nat)) (lastDepth : Nat),
      batch.length ≤ MAX_URLS_PER_DEPTH →
      (collectBatch visited queue batch lastDepth).1.length ≤ MAX_URLS_PER_DEPTH := by
  intro queue
  induction queue with
  | nil => intro batch lastDepth h; simpa [collectBatch] using h
  | cons q rest ih =>
    intro batch lastDepth h
    obtain ⟨url, depth⟩ := q
    by_cases hlen : batch.length < MAX_URLS_PER_DEPTH
    · by_cases hv : url ∈ visited
      · simpa only [collectBatch, if_pos hlen, if_pos hv] using ih batch depth h
      · simp only [collectBatch, if_pos hlen, if_neg hv]
        exact ih (batch ++ [(url, depth)]) depth (by simpa using hlen)
    · simpa only [collectBatch, if_neg hlen] using h

/-- Whatever batch collection does not consume stays at the front of the
frontier, as a suffix of the original queue. -/
theorem collectBatch_rest_suffix (visited : List String) :
    ∀ (queue batch : List (String × Nat)) (lastDepth : Nat),
      (collectBatch visited queue batch lastDepth).2.2 <:+ queue := by
  intro queue
  induction queue with
  | nil => intro batch lastDepth; simp [collectBatch]
  | cons q rest ih =>
    intro batch lastDepth
    obtain ⟨url, depth⟩ := q
    by_cases hlen : batch.length < MAX_URLS_PER_DEPTH
    · by_cases hv : url ∈ visited
      · simp only [collectBatch, if_pos hlen, if_pos hv]
        exact (ih batch depth).trans (List.suffix_cons _ _)
      · simp only [collectBatch, if_pos hlen, if_neg hv]
        exact (ih (batch ++ [(url, depth)]) depth).trans (List.suffix_cons _ _)
    · simp only [collectBatch, if_neg hlen]
      exact List.suffix_refl _

/-- Entries collected into the batch were unvisited when popped. -/
theorem collectBatch_batch_unvisited (visited : List String) :
    ∀ (queue batch : List (String × Nat)) (lastDepth : Nat),
      (∀ p ∈ batch, p.1 ∉ visited) →
      ∀ p ∈ (collectBatch visited queue batch lastDepth).1, p.1 ∉ visited := by
  intro queue
  induction queue with
  | nil => intro batch lastDepth h; simpa [collectBatch] using h
  | cons q rest ih =>
    intro batch lastDepth h
    obtain ⟨url, depth⟩ := q
    by_cases hlen : batch.length < MAX_URLS_PER_DEPTH
    · by_cases hv : url ∈ visited
      · simpa only [collectBatch, if_pos hlen, if_pos hv] using ih batch depth h
      · simp only [collectBatch, if_pos hlen, if_neg hv]
        refine ih (batch ++ [(url, depth)]) depth ?_
        intro p hp
        rcases List.mem_append.mp hp with hp | hp
        · exact h p hp
        · rcases List.mem_singleton.mp hp with rfl
          exact hv
    · simpa only [collectBatch, if_neg hlen] using h

/-- Every entry the merge step appends to the frontier carries `depth + 1`,
for the single `depth` value the merge step uses. -/
theorem mergeResults_depth (visited : List String) (depth : Nat)
    (results : List (List String)) :
    ∀ p ∈ mergeResults visited depth results, p.2 = depth + 1 := by
  unfold mergeResults
  refine foldl_preserves (fun p : String × Nat => p.2 = depth + 1) _ ?_ results [] (by simp)
  intro acc new_urls hacc
  refine foldl_preserves (fun p : String × Nat => p.2 = depth + 1) _ ?_ new_urls acc hacc
  intro acc2 u hacc2 b hb
  by_cases hu : u ∈ visited
  · rw [if_pos hu] at hb
    exact hacc2 b hb
  · rw [if_neg hu] at hb
    rcases List.mem_append.mp hb with hb | hb
    · exact hacc2 b hb
    · rcases List.mem_singleton.mp hb with rfl
      rfl

/-- One loop iteration preserves the at-most-once-fetch invariant: the fetch
trace has pairwise-distinct URLs, all of them already marked visited. -/
theorem crawlStep_fetch_inv (env : CrawlEnv) (host : String) (st : CrawlState)
    (h : ((st.fetchTrace.map Prod.fst).Nodup ∧
      ∀ u ∈ st.fetchTrace.map Prod.fst, u ∈ st.visited)) :
    ((crawlStep env host st).fetchTrace.map Prod.fst).Nodup ∧
      ∀ u ∈ (crawlStep env host st).fetchTrace.map Prod.fst,
        u ∈ (crawlStep env host st).visited := by
  simp only [crawlStep]
  split
  · exact h
  · constructor
    · rw [List.map_append]
      refine List.nodup_append.mpr ⟨h.1, dispatchPhase_fetched_nodup _ _, ?_⟩
      intro u hu hu'
      obtain ⟨p, hp, hpu⟩ := List.mem_map.mp hu'
      exact (dispatchPhase_fetched_spec _ _ p hp).2.2 (hpu ▸ h.2 u hu)
    · intro u hu
      rw [List.map_append] at hu
      rw [dispatchPhase_visited_eq]
      rcases List.mem_append.mp hu with hu | hu
      · exact List.mem_append_left _ (h.2 u hu)
      · exact List.mem_append_right _ hu

/-- C1: across the entire crawl, every URL is dispatched for fetch at most
once — the fetch trace contains pairwise-distinct URLs — because
`process_url` adds the URL to the visited set synchronously before issuing
its fetch, so at most one `process_url` invocation per URL proceeds past the
visited check, no matter how often the URL occurs in the frontier; moreover
every fetched URL is in the final visited set. -/
theorem C1_at_most_once_fetch (env : CrawlEnv) (start_url : String) (fuel : Nat) :
    (((crawl_recursive env start_url fuel).fetchTrace.map Prod.fst).Nodup) ∧
      ∀ u ∈ (crawl_recursive env start_url fuel).fetchTrace.map Prod.fst,
        u ∈ (crawl_recursive env start_url fuel).visited := by
  exact crawlLoop_inv env (get_host_name start_url)
    (fun st => (st.fetchTrace.map Prod.fst).Nodup ∧
      ∀ u ∈ st.fetchTrace.map Prod.fst, u ∈ st.visited)
    (fun st h => crawlStep_fetch_inv env _ st h)
    fuel (initState start_url) (by simp [initState])

/-- Witness for C1 at a concrete crawl: the seed of the two-page site is
fetched and is in the final visited set. -/
theorem C1_witness :
    "t://h" ∈ tinyRun.fetchTrace.map Prod.fst ∧ "t://h" ∈ tinyRun.visited :=
  ⟨by decide, (C1_at_most_once_fetch tinyEnv "t://h" 4).2 "t://h" (by decide)⟩

/-- C3: no URL is ever fetched at a depth greater than `MAX_DEPTH`: every
frontier entry popped with a larger depth is discarded by `process_url`'s
guard without a fetch, so every fetch event in any crawl carries a depth of
at most `MAX_DEPTH`. -/
theorem C3_depth_bound (env : CrawlEnv) (start_url : String) (fuel : Nat) :
    ∀ p ∈ (crawl_recursive env start_url fuel).fetchTrace, p.2 ≤ MAX_DEPTH := by
  refine crawlLoop_inv env (get_host_name start_url)
    (fun st => ∀ p ∈ st.fetchTrace, p.2 ≤ MAX_DEPTH)
    (fun st h => ?_) fuel (initState start_url) (by simp [initState])
  simp only [crawlStep]
  split
  · exact h
  · intro p hp
    rcases List.mem_append.mp hp with hp | hp
    · exact h p hp
    · exact (dispatchPhase_fetched_spec _ _ p hp).2.1

/-- Witness for C3 at a concrete crawl: the seed is fetched at depth 1, which
is within the depth cap. -/
theorem C3_witness : ("t://h", 1) ∈ tinyRun.fetchTrace ∧ ("t://h", 1).2 ≤ MAX_DEPTH :=
  ⟨by decide, C3_depth_bound tinyEnv "t://h" 4 ("t://h", 1) (by decide)⟩

/-- C7: a single dispatch batch holds at most `MAX_URLS_PER_DEPTH` entries,
all unvisited when popped, even when the frontier holds more eligible
entries; the excess entries are left in place, a suffix of the original
frontier, for a subsequent batch. -/
theorem C7_batch_cap (env : CrawlEnv) (start_url : String) (fuel : Nat) :
    (∀ b ∈ (crawl_recursive env start_url fuel).batches,
      b.length ≤ MAX_URLS_PER_DEPTH) ∧
    ∀ (visited : List String) (queue : List (String × Nat)),
      (collectBatch visited queue [] 0).1.length ≤ MAX_URLS_PER_DEPTH ∧
      (collectBatch visited queue [] 0).2.2 <:+ queue ∧
      ∀ p ∈ (collectBatch visited queue [] 0).1, p.1 ∉ visited := by
  constructor
  · refine crawlLoop_inv env (get_host_name start_url)
      (fun st => ∀ b ∈ st.batches, b.length ≤ MAX_URLS_PER_DEPTH)
      (fun st h => ?_) fuel (initState start_url) (by simp [initState])
    simp only [crawlStep]
    split
    · exact h
    · intro b hb
      rcases List.mem_append.mp hb with hb | hb
      · exact h b hb
      · rcases List.mem_singleton.mp hb with rfl
        exact collectBatch_length _ _ [] 0 (by simp [MAX_URLS_PER_DEPTH])
  · intro visited queue
    exact ⟨collectBatch_length _ _ [] 0 (by simp [MAX_URLS_PER_DEPTH]),
      collectBatch_rest_suffix _ _ [] 0,
      collectBatch_batch_unvisited _ _ [] 0 (by simp)⟩

/-- Witness for C7 at a concrete crawl: the two-page site's first batch is in
the batch trace and respects the cap. -/
theorem C7_witness :
    [("t://h", 1)] ∈ tinyRun.batches ∧ [("t://h", 1)].length ≤ MAX_URLS_PER_DEPTH :=
  ⟨by decide, (C7_batch_cap tinyEnv "t://h" 4).1 [("t://h", 1)] (by decide)⟩

/-- C2, counterexample: the claim says `should_process_url` returns false
whenever the URL's scheme+authority differs from the seed's.  With seed
`http://a.com`, the URL `http://a.comx/p` has authority `a.comx` — its
scheme+authority differs from the seed's — yet `should_process_url` accepts
it, because the domain test is a string-prefix comparison, not a
scheme+authority comparison. -/
theorem C2_counterexample :
    should_process_url (get_host_name "http://a.com") "http://a.comx/p" = true ∧
    get_host_name "http://a.comx/p" ≠ get_host_name "http://a.com" := by decide

/-- C2, amended: `should_process_url` accepts a URL exactly when it is
nonempty, has the host scope `get_host_name seed` as a string prefix (so
same-scheme+authority URLs of the seed's host are accepted, but so is any URL
that merely extends the host-scope string, such as a longer authority), and
the lowercased extension of its parsed path is in `{.htm, .html, ""}`. -/
theorem C2_amended_prefix_filter (host_name url : String) :
    should_process_url host_name url = true ↔
      url ≠ "" ∧ startswith url host_name = true ∧
        lowerStr (splitext_ext (urlparse_path url)) ∈ VALID_EXTENSIONS := by
  unfold should_process_url
  by_cases h1 : url = ""
  · simp [h1]
  · cases hsw : startswith url host_name <;> simp [h1, hsw]

/-- A trace that satisfies the barrier shape can be extended on the right;
checking the extension continues from mode `none`. -/
theorem traceOk_append (tail : List CrawlEvent) :
    ∀ (evs : List CrawlEvent) (m : Option (List (String × Nat))),
      traceOk m evs = true → traceOk m (evs ++ tail) = traceOk none tail := by
  intro evs
  induction evs with
  | nil =>
    intro m h
    cases m with
    | none => simp
    | some b => simp [traceOk] at h
  | cons e evs ih =>
    intro m h
    cases m with
    | none =>
      cases e with
      | batchStart b l =>
        simp only [traceOk] at h
        simpa only [List.cons_append, traceOk] using ih _ h
      | fetch u d => simp [traceOk] at h
      | checkpoint v ok => simp [traceOk] at h
    | some b =>
      cases e with
      | batchStart b2 l => simp [traceOk] at h
      | fetch u d =>
        simp only [traceOk, Bool.and_eq_true] at h
        simp only [List.cons_append, traceOk]
        rw [h.1, Bool.true_and]
        exact ih _ h.2
      | checkpoint v ok =>
        simp only [traceOk] at h
        simpa only [List.cons_append, traceOk] using ih _ h

/-- A batch segment — fetches drawn from the batch followed by its
checkpoint — satisfies the barrier shape. -/
theorem traceOk_segment (b : List (String × Nat)) (v : List String) (ok : Bool) :
    ∀ fs : List (String × Nat), (∀ p ∈ fs, p ∈ b) →
      traceOk (some b)
        (fs.map (fun p => CrawlEvent.fetch p.1 p.2) ++ [CrawlEvent.checkpoint v ok]) = true := by
  intro fs
  induction fs with
  | nil => intro _; simp [traceOk]
  | cons p fs ih =>
    intro h
    simp only [List.map_cons, List.cons_append, traceOk, Bool.and_eq_true, decide_eq_true_eq]
    exact ⟨h p (List.mem_cons_self _ _), ih (fun q hq => h q (List.mem_cons_of_mem _ hq))⟩

/-- One loop iteration appends one complete, well-shaped segment to the event
trace (or nothing, when the popped entries were all already visited). -/
theorem crawlStep_traceOk (env : CrawlEnv) (host : String) (st : CrawlState)
    (h : traceOk none st.events = true) :
    traceOk none (crawlStep env host st).events = true := by
  simp only [crawlStep]
  split
  · exact h
  · rw [List.append_assoc, List.append_assoc, traceOk_append _ st.events none h,
      List.singleton_append]
    simp only [traceOk]
    exact traceOk_segment _ _ _ _ (fun p hp => (dispatchPhase_fetched_spec _ _ p hp).1)

/-- C5, counterexample: the claim says every dispatch batch is
depth-homogeneous.  On the concrete 51-child site the third batch of the
crawl contains both a depth-2 entry (the 51st child, deferred by the batch
cap) and depth-3 entries (grandchildren enqueued meanwhile), so a batch can
mix two depths once a depth level exceeds `MAX_URLS_PER_DEPTH`. -/
theorem C5_counterexample :
    exRun.batches.length = 4 ∧
    (exUrl 50, 2) ∈ exRun.batches.getD 2 [] ∧
    (exY 0, 3) ∈ exRun.batches.getD 2 [] := by decide

/-- C5, amended: batches need not be depth-homogeneous, but the strict
barrier does hold: every crawl's event trace is a sequence of completed
segments — a batch start, then fetches only of that batch's entries, then
that batch's checkpoint — so a batch's fetches and its checkpoint finish
before the next batch begins, with no cross-batch overlap. -/
theorem C5_amended_barrier (env : CrawlEnv) (start_url : String) (fuel : Nat) :
    traceOk none (crawl_recursive env start_url fuel).events = true := by
  exact crawlLoop_inv env (get_host_name start_url)
    (fun st => traceOk none st.events = true)
    (fun st h => crawlStep_traceOk env _ st h)
    fuel (initState start_url) (by simp [initState, traceOk])

/-- C4, counterexample: the claim says a URL discovered on a page fetched at
depth d is enqueued at depth d+1.  On the concrete 51-child site, the page
`exUrl 50` is fetched at depth 2 and its page links exactly to `exY 50`,
which passes the filter — yet `exY 50` is enqueued at depth 4, not 3,
because the merge step uses the batch-collection loop's final `depth`
variable (3, from the mixed batch's last entry) instead of the discovering
page's depth; `exY 50` is consequently never fetched at all (4 exceeds
`MAX_DEPTH`). -/
theorem C4_counterexample :
    (exUrl 50, 2) ∈ exRun.fetchTrace ∧
    exEnv.links (exUrl 50) (exUrl 50) = [exY 50] ∧
    should_process_url (get_host_name exSeed) (exY 50) = true ∧
    (exY 50, 4) ∈ exRun.enqueues ∧
    (exY 50, 3) ∉ exRun.enqueues ∧
    exY 50 ∉ exRun.fetchTrace.map Prod.fst := by decide

/-- C4, amended: all URLs accepted in one iteration's merge step are enqueued
at the same depth, `lastDepth + 1`, where `lastDepth` is the depth of the
last frontier entry popped during that iteration's batch collection — which
equals d+1 for a page fetched at depth d only when that last popped entry
also had depth d. -/
theorem C4_amended_uniform_enqueue_depth (env : CrawlEnv) (host : String)
    (st : CrawlState) (h : (collectBatch st.visited st.queue [] 0).1 ≠ []) :
    ∃ newEntries,
      (crawlStep env host st).queue =
        (collectBatch st.visited st.queue [] 0).2.2 ++ newEntries ∧
      (crawlStep env host st).enqueues = st.enqueues ++ newEntries ∧
      ∀ p ∈ newEntries, p.2 = (collectBatch st.visited st.queue [] 0).2.1 + 1 := by
  refine ⟨mergeResults (dispatchPhase (collectBatch st.visited st.queue [] 0).1 st.visited).1
      (collectBatch st.visited st.queue [] 0).2.1
      ((dispatchPhase (collectBatch st.visited st.queue [] 0).1 st.visited).2.map
        (taskResult env host
          (dispatchPhase (collectBatch st.visited st.queue [] 0).1 st.visited).1)),
    ?_, ?_, mergeResults_depth _ _ _⟩
  · simp only [crawlStep, if_neg h]
  · simp only [crawlStep, if_neg h]

/-- Witness for the amended C4 at a concrete state: the two-page site's
initial state has a nonempty first batch, and the iteration's appended
entries all carry the collection loop's last depth plus one. -/
theorem C4_amended_witness :
    (collectBatch (initState "t://h").visited (initState "t://h").queue [] 0).1 ≠ [] ∧
    ∃ newEntries,
      (crawlStep tinyEnv "t://h" (initState "t://h")).queue =
        (collectBatch (initState "t://h").visited (initState "t://h").queue [] 0).2.2
          ++ newEntries ∧
      (crawlStep tinyEnv "t://h" (initState "t://h")).enqueues =
        (initState "t://h").enqueues ++ newEntries ∧
      ∀ p ∈ newEntries,
        p.2 = (collectBatch (initState "t://h").visited (initState "t://h").queue [] 0).2.1 + 1 :=
  ⟨by decide, C4_amended_uniform_enqueue_depth tinyEnv "t://h" (initState "t://h") (by decide)⟩

/-- One loop iteration keeps the visited set duplicate-free and records only
duplicate-free snapshots in checkpoint events. -/
theorem crawlStep_checkpoint_inv (env : CrawlEnv) (host : String) (st : CrawlState)
    (h : st.visited.Nodup ∧
      ∀ v ok, CrawlEvent.checkpoint v ok ∈ st.events → v.Nodup) :
    (crawlStep env host st).visited.Nodup ∧
      ∀ v ok, CrawlEvent.checkpoint v ok ∈ (crawlStep env host st).events → v.Nodup := by
  simp only [crawlStep]
  split
  · exact h
  · refine ⟨dispatchPhase_visited_nodup _ _ h.1, ?_⟩
    intro v ok hv
    rcases List.mem_append.mp hv with hv | hv
    · rcases List.mem_append.mp hv with hv | hv
      · rcases List.mem_append.mp hv with hv | hv
        · exact h.2 v ok hv
        · exact CrawlEvent.noConfusion (List.mem_singleton.mp hv)
      · obtain ⟨p, _, hpe⟩ := List.mem_map.mp hv
        exact CrawlEvent.noConfusion hpe
    · have heq := List.mem_singleton.mp hv
      injection heq with h1 _
      rw [h1]
      exact dispatchPhase_visited_nodup _ _ h.1

/-- C6: every checkpoint writes, by a full rewrite, exactly the sorted,
de-duplicated contents of the visited set at that instant, one URL per line:
the written lines are sorted, duplicate-free, contain exactly the visited
URLs, and re-sorting them reproduces them (the snapshot is idempotent). -/
theorem C6_checkpoint_snapshot (env : CrawlEnv) (start_url : String) (fuel : Nat)
    (v : List String) (ok : Bool)
    (h : CrawlEvent.checkpoint v ok ∈ (crawl_recursive env start_url fuel).events) :
    List.Sorted (· ≤ ·) (save_progress_lines v) ∧
    (save_progress_lines v).Nodup ∧
    (∀ u, u ∈ save_progress_lines v ↔ u ∈ v) ∧
    save_progress_lines (save_progress_lines v) = save_progress_lines v := by
  have hinv := crawlLoop_inv env (get_host_name start_url)
    (fun st => st.visited.Nodup ∧
      ∀ v ok, CrawlEvent.checkpoint v ok ∈ st.events → v.Nodup)
    (fun st h => crawlStep_checkpoint_inv env _ st h)
    fuel (initState start_url) (by simp [initState])
  have hv : v.Nodup := hinv.2 v ok h
  unfold save_progress_lines
  exact ⟨List.sorted_insertionSort _ v,
    (List.perm_insertionSort _ v).nodup_iff.mpr hv,
    fun u => List.mem_insertionSort _,
    (List.sorted_insertionSort _ v).insertionSort_eq⟩

/-- Witness for C6 at a concrete crawl: the two-page site's second checkpoint
snapshot. -/
theorem C6_witness :
    CrawlEvent.checkpoint ["t://h", "t://h/a"] true ∈ tinyRun.events ∧
    (List.Sorted (· ≤ ·) (save_progress_lines ["t://h", "t://h/a"]) ∧
     (save_progress_lines ["t://h", "t://h/a"]).Nodup ∧
     (∀ u, u ∈ save_progress_lines ["t://h", "t://h/a"] ↔ u ∈ ["t://h", "t://h/a"]) ∧
     save_progress_lines (save_progress_lines ["t://h", "t://h/a"]) =
       save_progress_lines ["t://h", "t://h/a"]) :=
  ⟨by decide,
    C6_checkpoint_snapshot tinyEnv "t://h" 4 ["t://h", "t://h/a"] true (by decide)⟩

/-- `extract_urls` reads the environment only through `links`. -/
theorem extract_urls_congr (e1 e2 : CrawlEnv) (hl : e1.links = e2.links)
    (host b u : String) (v : List String) :
    extract_urls e1 host b u v = extract_urls e2 host b u v := by
  unfold extract_urls
  rw [hl]

/-- `fetch_url` reads the environment only through `http`. -/
theorem fetch_url_congr (e1 e2 : CrawlEnv) (hh : e1.http = e2.http) :
    ∀ u, fetch_url e1 u = fetch_url e2 u := by
  intro u
  unfold fetch_url
  rw [hh]

/-- `taskResult` reads the environment only through `http` and `links`. -/
theorem taskResult_congr (e1 e2 : CrawlEnv) (hh : e1.http = e2.http)
    (hl : e1.links = e2.links) (host : String) :
    ∀ (v : List String) (t : Option (String × Nat)),
      taskResult e1 host v t = taskResult e2 host v t := by
  intro v t
  cases t with
  | none => rfl
  | some p =>
    obtain ⟨url, depth⟩ := p
    simp only [taskResult, fetch_url_congr e1 e2 hh url]
    cases fetch_url e2 url with
    | none => rfl
    | some html =>
      by_cases hhtml : html = ""
      · simp [hhtml]
      · simp only [if_neg hhtml]
        exact extract_urls_congr e1 e2 hl host html url v

/-- Two environments whose `ioErr` agree and whose tasks produce identical
results drive `crawlStep` identically. -/
theorem crawlStep_congr (e1 e2 : CrawlEnv) (host : String)
    (hio : e1.ioErr = e2.ioErr)
    (ht : ∀ (v : List String) (t : Option (String × Nat)),
      taskResult e1 host v t = taskResult e2 host v t) :
    ∀ st, crawlStep e1 host st = crawlStep e2 host st := by
  intro st
  have hm : ∀ (v : List String) (ts : List (Option (String × Nat))),
      ts.map (taskResult e1 host v) = ts.map (taskResult e2 host v) :=
    fun v ts => List.map_congr_left (fun t _ => ht v t)
  simp only [crawlStep, hio, hm]

/-- Two environments that drive `crawlStep` identically drive the whole loop
identically. -/
theorem crawlLoop_congr (e1 e2 : CrawlEnv) (host : String)
    (hstep : ∀ st, crawlStep e1 host st = crawlStep e2 host st) :
    ∀ (fuel : Nat) (st : CrawlState),
      crawlLoop e1 host fuel st = crawlLoop e2 host fuel st := by
  intro fuel
  induction fuel with
  | zero => intro st; rfl
  | succ n ih =>
    intro st
    simp only [crawlLoop]
    by_cases hq : st.queue = []
    · rw [if_pos hq, if_pos hq]
    · rw [if_neg hq, if_neg hq, hstep, ih]

/-- C8: a fetch failure for URL `a` — timeout, transport error, or any
non-200 response — is contained at single-URL granularity: the whole crawl is
exactly the crawl in which `a`'s fetch succeeds with an empty (link-free)
body, so `a` contributes no links while every other URL in the same and later
batches is processed exactly the same, and no failure aborts the batch or the
crawl; moreover every fetched URL, `a` included, is in the final visited set
(so it appears in subsequent checkpoints). -/
theorem C8_failure_isolation (env : CrawlEnv) (a start_url : String) (fuel : Nat)
    (o : FetchOutcome) (h : ∀ body, o ≠ FetchOutcome.response 200 body) :
    crawl_recursive (setHttp env a o) start_url fuel =
      crawl_recursive (setHttp env a (FetchOutcome.response 200 "")) start_url fuel ∧
    ∀ u ∈ (crawl_recursive (setHttp env a o) start_url fuel).fetchTrace.map Prod.fst,
      u ∈ (crawl_recursive (setHttp env a o) start_url fuel).visited := by
  constructor
  · unfold crawl_recursive
    refine crawlLoop_congr (setHttp env a o)
      (setHttp env a (FetchOutcome.response 200 "")) (get_host_name start_url)
      (crawlStep_congr _ _ _ rfl ?_) fuel (initState start_url)
    intro v t
    cases t with
    | none => rfl
    | some p =>
      obtain ⟨url, depth⟩ := p
      by_cases hu : url = a
      · subst hu
        have h1 : fetch_url (setHttp env url o) url = none := by
          unfold fetch_url setHttp
          simp only [if_pos rfl]
          cases o with
          | response s b =>
            have hs : s ≠ 200 := fun hs => h b (by rw [hs])
            simp [hs]
          | timeout => rfl
          | netError => rfl
        have h2 : fetch_url (setHttp env url (FetchOutcome.response 200 "")) url
            = some "" := by
          unfold fetch_url setHttp
          simp
        simp [taskResult, h1, h2]
      · have hf : fetch_url (setHttp env a o) url =
            fetch_url (setHttp env a (FetchOutcome.response 200 "")) url := by
          unfold fetch_url setHttp
          simp [hu]
        simp only [taskResult, hf]
        cases fetch_url (setHttp env a (FetchOutcome.response 200 "")) url with
        | none => rfl
        | some html =>
          by_cases hhtml : html = ""
          · simp [hhtml]
          · simp only [if_neg hhtml]
            exact extract_urls_congr _ _ rfl _ html url v
  · have hinv := crawlLoop_inv (setHttp env a o) (get_host_name start_url)
      (fun st => (st.fetchTrace.map Prod.fst).Nodup ∧
        ∀ u ∈ st.fetchTrace.map Prod.fst, u ∈ st.visited)
      (fun st h => crawlStep_fetch_inv _ _ st h)
      fuel (initState start_url) (by simp [initState])
    exact hinv.2

/-- Witness for C8 at a concrete failure: a timeout on the two-page site's
child URL. -/
theorem C8_witness :
    (∀ body, FetchOutcome.timeout ≠ FetchOutcome.response 200 body) ∧
    (crawl_recursive (setHttp tinyEnv "t://h/a" FetchOutcome.timeout) "t://h" 4 =
      crawl_recursive (setHttp tinyEnv "t://h/a" (FetchOutcome.response 200 ""))
        "t://h" 4 ∧
    ∀ u ∈ (crawl_recursive (setHttp tinyEnv "t://h/a" FetchOutcome.timeout)
        "t://h" 4).fetchTrace.map Prod.fst,
      u ∈ (crawl_recursive (setHttp tinyEnv "t://h/a" FetchOutcome.timeout)
        "t://h" 4).visited) := by
  refine ⟨fun _ hb => ?_, ?_⟩
  · exact FetchOutcome.noConfusion hb
  · exact C8_failure_isolation tinyEnv "t://h/a" "t://h" 4 FetchOutcome.timeout
      (fun _ hb => FetchOutcome.noConfusion hb)

/-- Environments that agree on `http` and `links` (but may differ on `ioErr`)
step the core state — visited set, frontier, counters and traces — in
lockstep; only the file contents and the event log can differ. -/
theorem crawlStep_core_congr (e1 e2 : CrawlEnv) (host : String)
    (hh : e1.http = e2.http) (hl : e1.links = e2.links) (st1 st2 : CrawlState)
    (hc : coreState st1 = coreState st2) :
    coreState (crawlStep e1 host st1) = coreState (crawlStep e2 host st2) := by
  have h1 : st1.visited = st2.visited := congrArg (fun c => c.1) hc
  have h2 : st1.queue = st2.queue := congrArg (fun c => c.2.1) hc
  have h3 : st1.nCheckpoints = st2.nCheckpoints := congrArg (fun c => c.2.2.1) hc
  have h4 : st1.fetchTrace = st2.fetchTrace := congrArg (fun c => c.2.2.2.1) hc
  have h5 : st1.batches = st2.batches := congrArg (fun c => c.2.2.2.2.1) hc
  have h6 : st1.enqueues = st2.enqueues := congrArg (fun c => c.2.2.2.2.2) hc
  have hm : ∀ (v : List String) (ts : List (Option (String × Nat))),
      ts.map (taskResult e1 host v) = ts.map (taskResult e2 host v) :=
    fun v ts => List.map_congr_left (fun t _ => taskResult_congr e1 e2 hh hl host v t)
  simp only [crawlStep, coreState, h1, h2, h3, h4, h5, h6, hm]
  by_cases hb : (collectBatch st2.visited st2.queue [] 0).1 = []
  · rw [if_pos hb, if_pos hb]
  · rw [if_neg hb, if_neg hb]

/-- The lockstep property extends to the whole loop. -/
theorem crawlLoop_core_congr (e1 e2 : CrawlEnv) (host : String)
    (hh : e1.http = e2.http) (hl : e1.links = e2.links) :
    ∀ (fuel : Nat) (st1 st2 : CrawlState), coreState st1 = coreState st2 →
      coreState (crawlLoop e1 host fuel st1) = coreState (crawlLoop e2 host fuel st2) := by
  intro fuel
  induction fuel with
  | zero => intro st1 st2 hc; exact hc
  | succ n ih =>
    intro st1 st2 hc
    have h2 : st1.queue = st2.queue := congrArg (fun c => c.2.1) hc
    simp only [crawlLoop]
    by_cases hq : st1.queue = []
    · rw [if_pos hq, if_pos (h2 ▸ hq)]
      exact hc
    · rw [if_neg hq, if_neg (h2 ▸ hq)]
      exact ih _ _ (crawlStep_core_congr e1 e2 host hh hl st1 st2 hc)

/-- C9: an I/O failure during a checkpoint is swallowed — `save_progress`
catches `IOError`, returns without raising, and the visited set, frontier,
checkpoint counter and all fetch/batch/enqueue behaviour are exactly those of
a crawl in which the write succeeded (the core state is independent of which
checkpoints fail), so the crawl proceeds; and a later checkpoint may succeed:
in the concrete two-page crawl whose first checkpoint raises and whose second
does not, the final file holds the sorted visited set written by the second
checkpoint. -/
theorem C9_io_failure_swallowed (env : CrawlEnv) (start_url : String) (fuel : Nat)
    (io1 io2 : Nat → Bool) :
    coreState (crawl_recursive { env with ioErr := io1 } start_url fuel) =
      coreState (crawl_recursive { env with ioErr := io2 } start_url fuel) ∧
    tinyEnvIO.ioErr 0 = true ∧ tinyEnvIO.ioErr 1 = false ∧
    tinyRunIO.nCheckpoints = 2 ∧
    tinyRunIO.file = some (save_progress_lines tinyRunIO.visited) := by
  constructor
  · unfold crawl_recursive
    exact crawlLoop_core_congr { env with ioErr := io1 } { env with ioErr := io2 }
      (get_host_name start_url) rfl rfl fuel _ _ rfl
  · exact ⟨by decide, by decide, by decide, rfl⟩

/-- Valid outputs of `process_paragraph_pair`: a pair is produced only when
the two cleaned texts are nonempty and detected as Vietnamese-then-English
(returned in page order) or English-then-Vietnamese (returned swapped). -/
theorem process_paragraph_pair_spec (detect : String → String) (p1 p2 : String)
    (r : String × String) (h : process_paragraph_pair detect p1 p2 = some r) :
    (detect (clean_text p1) = LANG_VI ∧ detect (clean_text p2) = LANG_EN ∧
      r = (clean_text p1, clean_text p2)) ∨
    (detect (clean_text p1) = LANG_EN ∧ detect (clean_text p2) = LANG_VI ∧
      r = (clean_text p2, clean_text p1)) := by
  simp only [process_paragraph_pair] at h
  by_cases he : clean_text p1 = "" ∨ clean_text p2 = ""
  · rw [if_pos he] at h
    exact absurd h (by simp)
  · rw [if_neg he] at h
    by_cases hvi : detect (clean_text p1) = LANG_VI ∧ detect (clean_text p2) = LANG_EN
    · rw [if_pos hvi] at h
      exact Or.inl ⟨hvi.1, hvi.2, (Option.some.inj h).symm⟩
    · rw [if_neg hvi] at h
      by_cases hen : detect (clean_text p1) = LANG_EN ∧ detect (clean_text p2) = LANG_VI
      · rw [if_pos hen] at h
        exact Or.inr ⟨hen.1, hen.2, (Option.some.inj h).symm⟩
      · rw [if_neg hen] at h
        exact absurd h (by simp)

/-- C10: every pair `get_bilingual_text` returns is oriented
Vietnamese-first, English-second (as judged by the language oracle on the
pair's own components), regardless of which language came first on the page;
and an adjacent paragraph pair produces output only in the two combinations
Vietnamese-English (kept) and English-Vietnamese (swapped) — any other
language combination produces none. -/
theorem C10_bilingual_orientation (detect : String → String) (page : PageResult) :
    (∀ pr ∈ get_bilingual_text detect page,
      detect pr.1 = LANG_VI ∧ detect pr.2 = LANG_EN) ∧
    (∀ p1 p2 r, process_paragraph_pair detect p1 p2 = some r →
      (detect (clean_text p1) = LANG_VI ∧ detect (clean_text p2) = LANG_EN ∧
        r = (clean_text p1, clean_text p2)) ∨
      (detect (clean_text p1) = LANG_EN ∧ detect (clean_text p2) = LANG_VI ∧
        r = (clean_text p2, clean_text p1))) := by
  constructor
  · cases page with
    | fetchError => simp [get_bilingual_text]
    | noContentDiv => simp [get_bilingual_text]
    | paragraphs ps =>
      unfold get_bilingual_text
      refine foldl_preserves
        (fun pr : String × String => detect pr.1 = LANG_VI ∧ detect pr.2 = LANG_EN)
        _ ?_ (ps.zip ps.tail) [] (by simp)
      intro acc p hacc b hb
      rcases hpp : process_paragraph_pair detect p.1 p.2 with _ | r
      · simp only [hpp] at hb
        exact hacc b hb
      · simp only [hpp] at hb
        rcases List.mem_append.mp hb with hb | hb
        · exact hacc b hb
        · rcases List.mem_singleton.mp hb with rfl
          rcases process_paragraph_pair_spec detect p.1 p.2 b hpp with hcase | hcase
          · rw [hcase.2.2]
            exact ⟨hcase.1, hcase.2.1⟩
          · rw [hcase.2.2]
            exact ⟨hcase.2.1, hcase.1⟩
  · exact fun p1 p2 r h => process_paragraph_pair_spec detect p1 p2 r h

/-- Witness for C10 at a concrete page whose English paragraph precedes its
Vietnamese one: the returned pair is swapped into Vietnamese-first order. -/
theorem C10_witness :
    ("xin chao", "hello") ∈
      get_bilingual_text exDetect (PageResult.paragraphs ["hello", "xin chao"]) ∧
    exDetect ("xin chao", "hello").1 = LANG_VI ∧
    exDetect ("xin chao", "hello").2 = LANG_EN :=
  ⟨by decide,
    (C10_bilingual_orientation exDetect (PageResult.paragraphs ["hello", "xin chao"])).1
      ("xin chao", "hello") (by decide)⟩

end Crawler
